import Mathlib

/-!
Shallow embedding of the rezvrh scraper core (timetable decoding, auth token
store, directory resolution) for checking the natural-language specification
against the source.  Pure functions are translated directly from the Rust
source; DOM elements are modelled by the slices the CSS selectors extract
(an element matched by a selector is represented by its list of text nodes,
its CSS classes, and the attributes the code reads).
-/

namespace Rezvrh

/-- Drop `sep` from the front of `l` when it is a prefix. -/
def dropPrefixChars : List Char → List Char → Option (List Char)
  | [], l => some l
  | _ :: _, [] => none
  | c :: cs, x :: xs => if c = x then dropPrefixChars cs xs else none

/-- Split a character list at the first occurrence of `sep`. -/
def splitOnceChars (sep : List Char) : List Char → Option (List Char × List Char)
  | [] => none
  | x :: xs =>
    match dropPrefixChars sep (x :: xs) with
    | some rest => some ([], rest)
    | none => (splitOnceChars sep xs).map (fun p => (x :: p.1, p.2))

/-- Models Rust `str::split_once(pat)`: split at the first occurrence of the
separator, returning the parts before and after it, or `none` when the
separator does not occur. -/
def splitOnceStr (s sep : String) : Option (String × String) :=
  (splitOnceChars sep.toList s.toList).map (fun p => (String.mk p.1, String.mk p.2))

/-- Accumulate an all-digit character list into a number. -/
def parseNatAux : List Char → Nat → Option Nat
  | [], acc => some acc
  | c :: cs, acc =>
    if c.isDigit then parseNatAux cs (acc * 10 + (c.toNat - 48)) else none

/-- Models Rust `str::parse::<usize>()` / `parse::<u32>()` on digit
strings: the number when the string is non-empty and all digits, `none`
otherwise. -/
def parseNat? (s : String) : Option Nat :=
  match s.toList with
  | [] => none
  | l => parseNatAux l 0

/-- ASCII whitespace test (the characters Rust `str::trim` strips in the
inputs this system sees). -/
def isWS (c : Char) : Bool :=
  c = ' ' ∨ c = '\t' ∨ c = '\n' ∨ c = '\r'

/-- Models Rust `str::trim`: strip leading and trailing whitespace. -/
def trimStr (s : String) : String :=
  String.mk (((s.toList.dropWhile isWS).reverse.dropWhile isWS).reverse)

/-- ASCII lower-casing of one character. -/
def asciiLower (c : Char) : Char :=
  if 'A' ≤ c ∧ c ≤ 'Z' then Char.ofNat (c.toNat + 32) else c

/-- ASCII lower-casing of a string (for `AsciiCaseInsensitive` class
comparison). -/
def lowerStr (s : String) : String :=
  String.mk (s.toList.map asciiLower)

/-- Models Rust `str::is_empty`. -/
def strIsEmpty (s : String) : Bool :=
  s.toList.isEmpty

/-- Models `single_iter` from `timetable/util.rs`: the sole element of an
iterator, or the supplied error when the iterator yields zero or more than
one element. -/
def single_iter (l : List α) (e : ε) : Except ε α :=
  match l with
  | [x] => Except.ok x
  | _ => Except.error e

/-- Models `Iterator::map(f).collect::<Result<Vec<_>, _>>()`: apply `f` to
each element in order, stopping at the first error. -/
def traverseE (f : α → Except ε β) : List α → Except ε (List β)
  | [] => Except.ok []
  | x :: xs => do
    let y ← f x
    let ys ← traverseE f xs
    Except.ok (y :: ys)

/-- Models `NaiveTime::parse_from_str(s, "%H:%M")`, as minutes after
midnight: two colon-separated decimal fields of one or two digits, hour
below 24, minute below 60, nothing else in the string. -/
def parseHM (s : String) : Option Nat :=
  match splitOnceStr s (":") with
  | some (h, m) =>
    if splitOnceStr m (":") = none then
      match parseNat? h, parseNat? m with
      | some hv, some mv =>
        if 0 < h.toList.length ∧ h.toList.length ≤ 2 ∧ 0 < m.toList.length ∧
            m.toList.length ≤ 2 ∧ hv < 24 ∧ mv < 60 then
          some (hv * 60 + mv)
        else none
      | _, _ => none
    else none
  | none => none

/-- Hour parse error (`timetable/hour.rs`); payload-free rendering of the
Rust enum (the carried diagnostics are kept as the offending string where
the claims need to distinguish errors). -/
inductive HourParseError where
  | NoNum
  | NoNumText
  | ParseNum (s : String)
  | MismatchedNum
  | NoFrom
  | NoFromText
  | ParseFrom (s : String)
  | NoDash
  | NoTo
  | NoToText
  | ParseTo (s : String)
deriving Repr, DecidableEq

/-- An element matched by `div.bk-hour-wrapper`: the elements matched inside
it by `div.num` and by `div.hour > span`, each given as its list of text
nodes. -/
structure HourBlock where
  nums : List (List String)
  times : List (List String)
deriving Repr, DecidableEq

/-- Decoded hour header (`timetable/hour.rs`): start as minutes after
midnight, duration in minutes (`to - from`, may be negative). -/
structure Hour where
  start : Nat
  duration : Int
deriving Repr, DecidableEq

/-- Models `Hour::parse(hour, i)` from `timetable/hour.rs`. -/
def Hour.parse (hour : HourBlock) (i : Nat) : Except HourParseError Hour := do
  let numEl ← single_iter hour.nums HourParseError.NoNum
  let numText ← single_iter numEl HourParseError.NoNumText
  let num ← match parseNat? numText with
    | some n => Except.ok n
    | none => Except.error (HourParseError.ParseNum numText)
  if num ≠ i + 1 then
    Except.error HourParseError.MismatchedNum
  else do
    let fromEl ← match hour.times.head? with
      | some e => Except.ok e
      | none => Except.error HourParseError.NoFrom
    let rest := hour.times.tail
    let _ ← match rest.head? with
      | some e => Except.ok e
      | none => Except.error HourParseError.NoDash
    let toEl ← single_iter rest.tail HourParseError.NoTo
    let fromText ← single_iter fromEl HourParseError.NoFromText
    let fromTime ← match parseHM fromText with
      | some t => Except.ok t
      | none => Except.error (HourParseError.ParseFrom fromText)
    let toText ← single_iter toEl HourParseError.NoToText
    let toTime ← match parseHM toText with
      | some t => Except.ok t
      | none => Except.error (HourParseError.ParseTo toText)
    Except.ok { start := fromTime, duration := (toTime : Int) - (fromTime : Int) }

/-- Models the `enumerate().map(|(i, hour)| Hour::parse(hour, i)).collect()`
step of `Timetable::parse`, starting at index `k`. -/
def hoursParseGo (k : Nat) : List HourBlock → Except HourParseError (List Hour)
  | [] => Except.ok []
  | b :: bs => do
    let h ← Hour.parse b k
    let hs ← hoursParseGo (k + 1) bs
    Except.ok (h :: hs)

/-- The hour list decoding of `Timetable::parse` (`timetable.rs`). -/
def hoursParse (blocks : List HourBlock) : Except HourParseError (List Hour) :=
  hoursParseGo 0 blocks

/-- The printed period number of an hour block, when the block has exactly
one `div.num` element with exactly one numeric text node (the shape
`Hour::parse` accepts before the position check). -/
def HourBlock.printedNum (b : HourBlock) : Option Nat :=
  match b.nums with
  | [[t]] => parseNat? t
  | _ => none

/-- Whether an `Except` value is `ok`. -/
def isOkE : Except ε α → Bool
  | Except.ok _ => true
  | Except.error _ => false

/-! ## Calendar dates (`chrono::NaiveDate`) -/

/-- A proleptic Gregorian calendar date, modelling `chrono::NaiveDate`. -/
structure NDate where
  year : Int
  month : Nat
  day : Nat
deriving Repr, DecidableEq

/-- Gregorian leap-year test. -/
def isLeap (y : Int) : Bool :=
  y % 4 == 0 && (y % 100 != 0 || y % 400 == 0)

/-- Days in the months of a common year before month `m` (1-based). -/
def daysBeforeMonth : Nat → Nat
  | 1 => 0
  | 2 => 31
  | 3 => 59
  | 4 => 90
  | 5 => 120
  | 6 => 151
  | 7 => 181
  | 8 => 212
  | 9 => 243
  | 10 => 273
  | 11 => 304
  | 12 => 334
  | _ => 0

/-- Length of month `m` of year `y`. -/
def daysInMonth (y : Int) (m : Nat) : Nat :=
  if m = 2 then (if isLeap y then 29 else 28)
  else if m = 4 ∨ m = 6 ∨ m = 9 ∨ m = 11 then 30
  else 31

/-- Models `NaiveDate::from_ymd_opt`: a date value when year/month/day form
a valid calendar date, `none` otherwise. -/
def fromYmd? (y : Int) (m d : Nat) : Option NDate :=
  if 1 ≤ m ∧ m ≤ 12 ∧ 1 ≤ d ∧ d ≤ daysInMonth y m then some (NDate.mk y m d)
  else none

/-- Rata-die day number of a date (days since 0000-12-31 in the proleptic
Gregorian calendar); differences of this number model
`(date - date).num_days()` on `chrono::NaiveDate`. -/
def NDate.toRataDie (dt : NDate) : Int :=
  365 * (dt.year - 1) + Int.fdiv (dt.year - 1) 4 - Int.fdiv (dt.year - 1) 100
    + Int.fdiv (dt.year - 1) 400 + (daysBeforeMonth dt.month : Int)
    + (if 2 < dt.month ∧ isLeap dt.year then 1 else 0) + (dt.day : Int)

/-- Models `(a - b).num_days()` for two `NaiveDate`s. -/
def dateDiff (a b : NDate) : Int :=
  a.toRataDie - b.toRataDie

/-! ## Day rows (`timetable/day.rs`) -/

/-- Lesson parse error (`timetable/lesson.rs`). -/
inductive LessonParseError where
  | NoData
  | Json
  | MissingProperty (p : String)
  | BadSubjectText (s : String)
  | DataTypeMismatch
deriving Repr, DecidableEq

/-- Day parse error (`timetable/day.rs`). -/
inductive DayParseError where
  | NoName
  | NoNameText
  | NoDate
  | ParseDate (s : String)
  | NoLessons
  | Lesson (e : LessonParseError)
deriving Repr, DecidableEq

/-- The embedded `data-detail` JSON payload after `serde` decoding
(`LessonData` in `timetable/lesson.rs`); `Option String` fields are already
normalised by `empty_string_as_none` (absent or empty string becomes
`none`). -/
structure RegularData where
  subject_text : Option String
  teacher : Option String
  room : Option String
  group : Option String
  theme : Option String
  notice : Option String
  changeinfo : Option String
  homeworks : Option String
  absencetext : Option String
  has_absent : Bool
  absent_info_text : Option String
deriving Repr, DecidableEq

/-- The discriminated payload: `type` is `"atom"`, `"removed"` or
`"absent"`. -/
inductive LessonData where
  | regular (d : RegularData)
  | canceled (subjecttext : Option String)
  | absent (info_absent_name : Option String) (absent_info : Option String)
deriving Repr, DecidableEq

/-- The `data-detail` attribute of a lesson entry: missing, present but not
valid JSON for `LessonData`, or decoded. -/
inductive RawDetail where
  | missing
  | malformed
  | decoded (d : LessonData)
deriving Repr, DecidableEq

/-- An element matched by `div.day-item-hover`: its decoded `data-detail`
attribute, its CSS classes, and the elements matched inside it by
`div.middle` and `div.bottom` (each as its list of text nodes). -/
structure LessonEl where
  detail : RawDetail
  cssClasses : List String
  middle : List (List String)
  bottom : List (List String)
deriving Repr, DecidableEq

/-- Models `scraper`'s `has_class(name, AsciiCaseInsensitive)`. -/
def LessonEl.has_class (e : LessonEl) (c : String) : Bool :=
  e.cssClasses.any (fun s => lowerStr s == lowerStr c)

/-- The timetable type (`Type` in `timetable.rs`): the selector context the
page was requested for. -/
inductive TType where
  | teacher (id : String)
  | cls (id : String)
  | room (id : String)
deriving Repr, DecidableEq

/-- Whether the context is the Teacher view. -/
def TType.isTeacher : TType → Bool
  | TType.teacher _ => true
  | _ => false

/-- A decoded lesson entry (`Lesson` in `timetable/lesson.rs`).  `cls`
renders the Rust field `class`. -/
inductive Lesson where
  | Regular (cls subject abbr teacher : String) (teacher_abbr room group topic : Option String)
  | Substitution (cls subject abbr teacher : String)
      (teacher_abbr room group topic : Option String)
  | Canceled
  | Absent (info abbr : String)
deriving Repr, DecidableEq

/-- Models `get_prop` from `timetable/lesson.rs`: the trimmed text of the
single element matched by a selector (the matched elements are passed
directly), the single text node of which is required. -/
def get_prop (els : List (List String)) (p : String) : Except LessonParseError String := do
  let el ← single_iter els (LessonParseError.MissingProperty p)
  let t ← single_iter el (LessonParseError.MissingProperty p)
  Except.ok (trimStr t)

/-- Models `parser::subject` from `timetable/lesson/parser.rs`: the first
segment of `subjecttext` split on the literal separator. -/
def parser_subject (s : Option String) : Except LessonParseError String := do
  let subjecttext ← match s with
    | some t => Except.ok t
    | none => Except.error (LessonParseError.MissingProperty ("subjecttext"))
  match splitOnceStr subjecttext (" | ") with
  | none => Except.error (LessonParseError.BadSubjectText subjecttext)
  | some (subject, _) =>
    if strIsEmpty subject then Except.error (LessonParseError.BadSubjectText subjecttext)
    else Except.ok (trimStr subject)

/-- Models `parser::teacher` from `timetable/lesson/parser.rs`: resolve the
teacher name and the teacher abbreviation for the given context. -/
def parser_teacher (lesson : LessonEl) (teacher : Option String) (timetable_type : TType) :
    Except LessonParseError (String × Option String) := do
  let teacher ← match teacher with
    | some t => Except.ok t
    | none =>
      match timetable_type with
      | TType.teacher t => Except.ok t
      | _ => Except.error (LessonParseError.MissingProperty ("teacher"))
  match timetable_type with
  | TType.teacher _ => Except.ok (teacher, none)
  | _ => do
    let abbr ← get_prop lesson.bottom ("teacher_abbr")
    Except.ok (teacher, some abbr)

/-- Models `parse_single` from `timetable/lesson.rs`: decode one lesson
entry, requiring the payload's declared type and the presentational CSS
marker to agree. -/
def parse_single (lesson : LessonEl) (timetable_type : TType) : Except LessonParseError Lesson := do
  let data ← match lesson.detail with
    | RawDetail.missing => Except.error LessonParseError.NoData
    | RawDetail.malformed => Except.error LessonParseError.Json
    | RawDetail.decoded d => Except.ok d
  match data with
  | LessonData.regular d => do
    let substituion := lesson.has_class ("pink")
    let subject ← parser_subject d.subject_text
    let abbr ← get_prop lesson.middle ("abbr")
    let tr ← parser_teacher lesson d.teacher timetable_type
    let topic := d.theme
    let cls ← match timetable_type with
      | TType.cls c => Except.ok c
      | _ =>
        match d.group with
        | some g => Except.ok g
        | none => Except.error (LessonParseError.MissingProperty ("group"))
    if substituion then
      Except.ok (Lesson.Substitution cls subject abbr tr.1 tr.2 d.room d.group topic)
    else
      Except.ok (Lesson.Regular cls subject abbr tr.1 tr.2 d.room d.group topic)
  | LessonData.absent info_absent_name absent_info =>
    if lesson.has_class ("green") then do
      let info ← match info_absent_name with
        | some i => Except.ok i
        | none => Except.error (LessonParseError.MissingProperty ("info_absent_name"))
      let abbr ← match absent_info with
        | some a => Except.ok a
        | none => Except.error (LessonParseError.MissingProperty ("absent_info"))
      Except.ok (Lesson.Absent info abbr)
    else
      Except.error LessonParseError.DataTypeMismatch
  | LessonData.canceled _ =>
    if lesson.has_class ("pink") then Except.ok Lesson.Canceled
    else Except.error LessonParseError.DataTypeMismatch

/-- An element matched by `div.day-item` inside a timetable cell, holding
the `div.day-item-hover` lesson entries. -/
structure DayItem where
  lessons : List LessonEl
deriving Repr, DecidableEq

/-- An element matched by `div.bk-timetable-cell`: its `div.day-item`
children. -/
structure Cell where
  items : List DayItem
deriving Repr, DecidableEq

/-- Models `Lesson::parse` from `timetable/lesson.rs`: no `div.day-item`
means an empty slot; otherwise decode every entry of the first item. -/
def Lesson.parse (cell : Cell) (timetable_type : TType) :
    Except LessonParseError (List Lesson) :=
  match cell.items with
  | [] => Except.ok []
  | item :: _ => traverseE (fun l => parse_single l timetable_type) item.lessons

/-- An element matched by `div.bk-timetable-row`: the elements matched by
`span.bk-day-date` (each as its text-node list) and the
`div.bk-timetable-cell` cells. -/
structure DayRow where
  dateSpans : List (List String)
  cells : List Cell
deriving Repr, DecidableEq

/-- A decoded day (`Day` in `timetable/day.rs`). -/
structure Day where
  date : Option NDate
  lessons : List (List Lesson)
deriving Repr, DecidableEq

/-- The date-inference closure of `Day::parse` (`timetable/day.rs` lines
46-80): parse a printed `D.M.` string, build the candidate in the current
local year (the year of `today`), and shift the year by one when the
candidate is more than 60 days away from `today`. -/
def inferDate (today : NDate) (d : String) : Except DayParseError NDate :=
  let year := today.year
  match splitOnceStr d (".") with
  | none => Except.error (DayParseError.ParseDate d)
  | some (dayS, rest) =>
    match splitOnceStr rest (".") with
    | none => Except.error (DayParseError.ParseDate d)
    | some (monthS, _) =>
      match parseNat? monthS, parseNat? dayS with
      | some month, some day =>
        match fromYmd? year month day with
        | none => Except.error (DayParseError.ParseDate d)
        | some date =>
          let diff := dateDiff date today
          if diff < -60 then
            match fromYmd? (year + 1) date.month date.day with
            | some d2 => Except.ok d2
            | none => Except.error (DayParseError.ParseDate d)
          else if diff > 60 then
            match fromYmd? (year - 1) date.month date.day with
            | some d2 => Except.ok d2
            | none => Except.error (DayParseError.ParseDate d)
          else
            Except.ok date
      | _, _ => Except.error (DayParseError.ParseDate d)

/-- Models `Day::parse` from `timetable/day.rs`.  `today` renders
`chrono::Local::now().date_naive()` (read by the source when it infers the
year). -/
def Day.parse (today : NDate) (day : DayRow) (timetable_type : TType) :
    Except DayParseError Day := do
  let span ← single_iter day.dateSpans DayParseError.NoDate
  let dateText := span.head?.map (fun d => trimStr d)
  if dateText.isSome ∧ span.tail.head?.isSome then
    Except.error DayParseError.NoDate
  else do
    let date ← match dateText with
      | none => Except.ok none
      | some d => (inferDate today d).map some
    let lessons ← (traverseE (fun c => Lesson.parse c timetable_type) day.cells).mapError
      DayParseError.Lesson
    Except.ok { date := date, lessons := lessons }

/-! ## Timetable assembly (`timetable.rs`) -/

/-- Timetable parse error (`timetable.rs`). -/
inductive TimetableParseError where
  | Hour (e : HourParseError)
  | Day (e : DayParseError)
deriving Repr, DecidableEq

/-- A decoded timetable. -/
structure Timetable where
  hours : List Hour
  days : List Day
deriving Repr, DecidableEq

/-- A timetable page: the elements matched by `div.bk-hour-wrapper` and by
`div.bk-timetable-row`, in document order. -/
structure Page where
  hourBlocks : List HourBlock
  dayRows : List DayRow
deriving Repr, DecidableEq

/-- Models `Timetable::parse` from `timetable.rs`: decode the hour headers,
then the day rows, and assemble them (no further cross-validation). -/
def Timetable.parse (today : NDate) (page : Page) (table_type : TType) :
    Except TimetableParseError Timetable := do
  let hours ← (hoursParse page.hourBlocks).mapError TimetableParseError.Hour
  let days ← (traverseE (fun d => Day.parse today d table_type) page.dayRows).mapError
    TimetableParseError.Day
  Except.ok { hours := hours, days := days }

/-! ## Token store (`auth.rs`, `auth/credentials.rs`)

Wall-clock instants are modelled as second counts (`Nat`); the login
exchange is modelled by an oracle giving the outcome of each successive
login attempt, since its result depends on the network. -/

/-- Login error (`auth.rs`); the carried diagnostics are dropped. -/
inductive LoginError where
  | Request
  | Login
  | CookieParse
deriving Repr, DecidableEq

/-- Models `TempToken` from `auth/credentials.rs`: a token with its
expiration instant. -/
structure TempToken where
  token : String
  expiration : Nat
deriving Repr, DecidableEq

/-- `TOKEN_LIFETIME` from `auth/credentials.rs`: token validity in
seconds. -/
def TOKEN_LIFETIME : Nat := 60 * 5

/-- Models `TempToken::new`: expiration is the creation instant plus the
fixed lifetime. -/
def TempToken.new (token : String) (now : Nat) : TempToken :=
  { token := token, expiration := now + TOKEN_LIFETIME }

/-- Models `TempToken::expired`: strictly after the expiration instant. -/
def TempToken.expired (t : TempToken) (now : Nat) : Bool :=
  now > t.expiration

/-- Models `TempToken::get`: the token while it is not expired. -/
def TempToken.get (t : TempToken) (now : Nat) : Option String :=
  if t.expired now then none else some t.token

/-- Models the token-owning actor loop spawned by `Credentials::new`
(`auth/credentials.rs` lines 60-75).  The actor owns the cached token and
serves queued requests one at a time, so requests are processed in queue
order; `reqs` lists the arrival instants of the queued requests, and
`login k` is the outcome of the `(k+1)`-th login attempt the actor would
perform.  The result is the final cached token, the responses in order, and
the number of login exchanges performed. -/
def runRequests (store : TempToken) (reqs : List Nat)
    (login : Nat → Except LoginError String) (k : Nat) :
    TempToken × List (Except LoginError String) × Nat :=
  match reqs with
  | [] => (store, [], 0)
  | r :: rs =>
    match store.get r with
    | some tok =>
      let rr := runRequests store rs login k
      (rr.1, Except.ok tok :: rr.2.1, rr.2.2)
    | none =>
      match login k with
      | Except.ok t =>
        let rr := runRequests (TempToken.new t r) rs login (k + 1)
        (rr.1, Except.ok t :: rr.2.1, rr.2.2 + 1)
      | Except.error e =>
        let rr := runRequests store rs login (k + 1)
        (rr.1, Except.error e :: rr.2.1, rr.2.2 + 1)

/-! ## Auth modes and request formation (`auth.rs`, `bakalari/timetable.rs`) -/

/-- The three auth modes of `Auth` in `auth.rs`.  The credentialed mode's
token store is modelled separately by `runRequests`; `credToken` stands for
the outcome the store returns for this read. -/
inductive AuthMode where
  | credentials
  | token (t : String)
  | anonymous
deriving Repr, DecidableEq

/-- Models `Auth::get_token` (`auth.rs` lines 42-48): a bare token is
returned verbatim, the credentialed mode delegates to the token store, and
the anonymous mode yields the empty string. -/
def Auth.get_token (a : AuthMode) (credToken : Except LoginError String) :
    Except LoginError String :=
  match a with
  | AuthMode.token t => Except.ok t
  | AuthMode.credentials => credToken
  | AuthMode.anonymous => Except.ok ("")

/-- The headers attached by `Bakalari::get_timetable`
(`bakalari/timetable.rs` line 26): a `Cookie` header is always built from
the token. -/
def timetableRequestHeaders (token : String) : List (String × String) :=
  [("Cookie", "BakaAuth=" ++ token)]

/-- `Which` from `timetable.rs`: which published timetable window to
fetch. -/
inductive Which where
  | Permanent
  | Actual
  | Next
deriving Repr, DecidableEq

/-- The `Display` rendering of `Which` in the source: the derive carries no
display attribute, so `derive_more` formats a unit variant as its (capital
initial) variant name. -/
def Which.display : Which → String
  | Which.Permanent => "Permanent"
  | Which.Actual => "Actual"
  | Which.Next => "Next"

/-- The serde rendering of `Which` under `#[serde(rename_all =
"lowercase")]` in `timetable.rs`. -/
def Which.serdeName : Which → String
  | Which.Permanent => "permanent"
  | Which.Actual => "actual"
  | Which.Next => "next"

/-- The `Display` rendering of `Type` (`timetable.rs`): `kind/id` with the
explicit lowercase display attributes of the source. -/
def TType.display : TType → String
  | TType.teacher id => "teacher/" ++ id
  | TType.cls id => "class/" ++ id
  | TType.room id => "room/" ++ id

/-- The request path built by `Bakalari::get_timetable`
(`bakalari/timetable.rs` line 23):
`format!("/timetable/public/{which}/{timetable_type}")`. -/
def timetablePath (which : Which) (timetable_type : TType) : String :=
  "/timetable/public/" ++ which.display ++ "/" ++ timetable_type.display

/-! ## Directory resolver (`bakalari/util.rs`, `bakalari/info.rs`) -/

/-- Request error (`bakalari.rs`); only the shape the claims need. -/
inductive RequestError where
  | Login (e : LoginError)
  | Request
  | UnknownResponse (s : String)
  | AuthRequired
deriving Repr, DecidableEq

/-- An `<option>` element matched under a kind-specific `<select>`: its
text nodes and its `value` attribute. -/
structure OptionEl where
  texts : List String
  value : Option String
deriving Repr, DecidableEq

/-- Models `HashMap::insert` on a map represented as an association list:
replace the entry of an existing key, append a new one otherwise. -/
def hmInsert (m : List (String × String)) (k v : String) : List (String × String) :=
  if m.any (fun p => p.1 == k) then
    m.map (fun p => if p.1 == k then (k, v) else p)
  else
    m ++ [(k, v)]

/-- Models `HashMap::get`. -/
def hmGet (m : List (String × String)) (k : String) : Option String :=
  (m.find? (fun p => p.1 == k)).map (fun p => p.2)

/-- Models `get_map` from `bakalari/util.rs`: for every matched option, the
first text node (trimmed) is the display name and the trimmed `value`
attribute is the identifier; the pairs are collected into a map, so a later
entry with the same name overwrites an earlier one. -/
def get_map (options : List OptionEl) : Except RequestError (List (String × String)) := do
  let pairs ← traverseE (fun e => do
    let name ← match e.texts.head? with
      | some n => Except.ok n
      | none => Except.error (RequestError.UnknownResponse ("missing class name"))
    let id ← match e.value with
      | some v => Except.ok v
      | none => Except.error (RequestError.UnknownResponse ("missing value attr"))
    Except.ok (trimStr name, trimStr id)) options
  Except.ok (pairs.foldl (fun m p => hmInsert m p.1 p.2) [])

/-- The directory maps owned by a `Bakalari` session. -/
structure Directory where
  classes : List (String × String)
  teachers : List (String × String)
  rooms : List (String × String)
deriving Repr, DecidableEq

/-- The public-facing subject kind (`RawType` in `timetable.rs`). -/
inductive RawType where
  | Teacher
  | Class
  | Room
deriving Repr, DecidableEq

/-- Models `Bakalari::get_class` / `get_teacher` / `get_room` and their
dispatcher `Bakalari::get_selector` (`bakalari/info.rs`): look the name up
in the matching map and wrap the identifier in a selector. -/
def get_selector (dir : Directory) (typ : RawType) (name : String) : Option TType :=
  match typ with
  | RawType.Class => (hmGet dir.classes name).map TType.cls
  | RawType.Teacher => (hmGet dir.teachers name).map TType.teacher
  | RawType.Room => (hmGet dir.rooms name).map TType.room

/-! ## Helper lemmas -/

theorem traverseE_cons (f : α → Except ε β) (x : α) (xs : List α) :
    traverseE f (x :: xs) =
      match f x with
      | Except.error e => Except.error e
      | Except.ok y =>
        match traverseE f xs with
        | Except.error e => Except.error e
        | Except.ok ys => Except.ok (y :: ys) := by
  cases hfx : f x <;> cases hxs : traverseE f xs <;>
    simp [traverseE, hfx, hxs, Bind.bind, Except.bind]

theorem traverseE_ok_length {f : α → Except ε β} :
    ∀ {l : List α} {res : List β}, traverseE f l = Except.ok res → res.length = l.length := by
  intro l
  induction l with
  | nil =>
    intro res h
    simp [traverseE] at h
    simp [← h]
  | cons x xs ih =>
    intro res h
    rw [traverseE_cons] at h
    cases hfx : f x with
    | error e => rw [hfx] at h; simp at h
    | ok y =>
      rw [hfx] at h
      cases hxs : traverseE f xs with
      | error e => rw [hxs] at h; simp at h
      | ok ys =>
        rw [hxs] at h
        simp at h
        simp [← h, ih hxs]

theorem traverseE_ok_get {f : α → Except ε β} :
    ∀ {l : List α} {res : List β}, traverseE f l = Except.ok res →
      ∀ i (h1 : i < l.length) (h2 : i < res.length),
        f (l.get ⟨i, h1⟩) = Except.ok (res.get ⟨i, h2⟩) := by
  intro l
  induction l with
  | nil =>
    intro res h i h1 h2
    exact absurd h1 (by simp)
  | cons x xs ih =>
    intro res h i h1 h2
    rw [traverseE_cons] at h
    cases hfx : f x with
    | error e => rw [hfx] at h; simp at h
    | ok y =>
      rw [hfx] at h
      cases hxs : traverseE f xs with
      | error e => rw [hxs] at h; simp at h
      | ok ys =>
        rw [hxs] at h
        simp at h
        subst h
        cases i with
        | zero => simpa using hfx
        | succ j => exact ih hxs j (by simpa using h1) (by simpa using h2)

theorem traverseE_ok_of_parts {f : α → Except ε β} :
    ∀ {l : List α} {res : List β}, res.length = l.length →
      (∀ i (h1 : i < l.length) (h2 : i < res.length),
          f (l.get ⟨i, h1⟩) = Except.ok (res.get ⟨i, h2⟩)) →
      traverseE f l = Except.ok res := by
  intro l
  induction l with
  | nil =>
    intro res hlen _
    cases res with
    | nil => rfl
    | cons y ys => simp at hlen
  | cons x xs ih =>
    intro res hlen hpt
    cases res with
    | nil => simp at hlen
    | cons y ys =>
      have hx : f x = Except.ok y := hpt 0 (by simp) (by simp)
      have hxs : traverseE f xs = Except.ok ys :=
        ih (by simpa using hlen) (fun i h1 h2 => hpt (i + 1) (by simpa using h1) (by simpa using h2))
      rw [traverseE_cons, hx, hxs]

theorem mapErrorE_ok_elim {g : ε → ε2} {x : Except ε α} {v : α}
    (h : Except.mapError g x = Except.ok v) : x = Except.ok v := by
  cases x with
  | error e => simp [Except.mapError] at h
  | ok w => simp [Except.mapError] at h; rw [h]

theorem dayParse_ok_elim {today : NDate} {row : DayRow} {tt : TType} {d : Day}
    (h : Day.parse today row tt = Except.ok d) :
    ∃ lessons, traverseE (fun c => Lesson.parse c tt) row.cells = Except.ok lessons ∧
      d.lessons = lessons := by
  unfold Day.parse at h
  simp only [Bind.bind, Except.bind] at h
  split at h
  · simp at h
  · split at h
    · simp at h
    · split at h
      · split at h
        · simp at h
        · rename_i lessons hles
          simp only [Except.ok.injEq] at h
          exact ⟨lessons, mapErrorE_ok_elim hles, by rw [← h]⟩
      · split at h
        · simp at h
        · split at h
          · simp at h
          · rename_i lessons hles
            simp only [Except.ok.injEq] at h
            exact ⟨lessons, mapErrorE_ok_elim hles, by rw [← h]⟩

theorem timetableParse_ok_elim {today : NDate} {page : Page} {tt : TType} {t : Timetable}
    (h : Timetable.parse today page tt = Except.ok t) :
    hoursParse page.hourBlocks = Except.ok t.hours ∧
      traverseE (fun d => Day.parse today d tt) page.dayRows = Except.ok t.days := by
  unfold Timetable.parse at h
  simp only [Bind.bind, Except.bind] at h
  split at h
  · simp at h
  · rename_i hours hh
    split at h
    · simp at h
    · rename_i days hd
      simp only [Except.ok.injEq] at h
      rw [← h]
      exact ⟨mapErrorE_ok_elim hh, mapErrorE_ok_elim hd⟩

theorem hoursParseGo_cons (k : Nat) (b : HourBlock) (bs : List HourBlock) :
    hoursParseGo k (b :: bs) =
      match Hour.parse b k with
      | Except.error e => Except.error e
      | Except.ok h =>
        match hoursParseGo (k + 1) bs with
        | Except.error e => Except.error e
        | Except.ok hs => Except.ok (h :: hs) := by
  cases hb : Hour.parse b k <;> cases hbs : hoursParseGo (k + 1) bs <;>
    simp [hoursParseGo, hb, hbs, Bind.bind, Except.bind]

theorem hoursParseGo_ok_of_parts :
    ∀ {blocks : List HourBlock} {hs : List Hour} (k : Nat), hs.length = blocks.length →
      (∀ i (h1 : i < blocks.length) (h2 : i < hs.length),
          Hour.parse (blocks.get ⟨i, h1⟩) (k + i) = Except.ok (hs.get ⟨i, h2⟩)) →
      hoursParseGo k blocks = Except.ok hs := by
  intro blocks
  induction blocks with
  | nil =>
    intro hs k hlen _
    cases hs with
    | nil => rfl
    | cons y ys => simp at hlen
  | cons b bs ih =>
    intro hs k hlen hpt
    cases hs with
    | nil => simp at hlen
    | cons h hs2 =>
      have hb : Hour.parse b k = Except.ok h := by
        have := hpt 0 (by simp) (by simp)
        simpa using this
      have hbs : hoursParseGo (k + 1) bs = Except.ok hs2 := by
        refine ih (k + 1) (by simpa using hlen) ?_
        intro i h1 h2
        have := hpt (i + 1) (by simpa using h1) (by simpa using h2)
        rw [show k + (i + 1) = k + 1 + i by omega] at this
        simpa using this
      rw [hoursParseGo_cons, hb, hbs]

theorem hoursParseGo_ok_get :
    ∀ {blocks : List HourBlock} {hs : List Hour} {k : Nat},
      hoursParseGo k blocks = Except.ok hs →
      hs.length = blocks.length ∧
      ∀ i (h1 : i < blocks.length) (h2 : i < hs.length),
        Hour.parse (blocks.get ⟨i, h1⟩) (k + i) = Except.ok (hs.get ⟨i, h2⟩) := by
  intro blocks
  induction blocks with
  | nil =>
    intro hs k h
    simp [hoursParseGo] at h
    refine ⟨by simp [← h], ?_⟩
    intro i h1 h2
    exact absurd h1 (by simp)
  | cons b bs ih =>
    intro hs k h
    rw [hoursParseGo_cons] at h
    cases hb : Hour.parse b k with
    | error e => rw [hb] at h; simp at h
    | ok hr =>
      rw [hb] at h
      cases hbs : hoursParseGo (k + 1) bs with
      | error e => rw [hbs] at h; simp at h
      | ok hs2 =>
        rw [hbs] at h
        simp only [Except.ok.injEq] at h
        subst h
        obtain ⟨hlen, hpt⟩ := ih hbs
        refine ⟨by simp [hlen], ?_⟩
        intro i h1 h2
        cases i with
        | zero => simpa using hb
        | succ j =>
          have := hpt j (by simpa using h1) (by simpa using h2)
          rw [show k + 1 + j = k + (j + 1) by omega] at this
          simpa using this

theorem Hour.parse_mismatchedNum {b : HourBlock} {i n : Nat}
    (hn : b.printedNum = some n) (hne : n ≠ i + 1) :
    Hour.parse b i = Except.error HourParseError.MismatchedNum := by
  unfold HourBlock.printedNum at hn
  split at hn
  · rename_i t heq
    unfold Hour.parse
    simp only [heq, single_iter, Bind.bind, Except.bind, hn]
    rw [if_pos hne]
  · simp at hn

theorem hoursParseGo_mismatch :
    ∀ {blocks : List HourBlock} {i n : Nat} (k : Nat) (hi : i < blocks.length),
      (∀ j (hj : j < i), isOkE (Hour.parse (blocks.get ⟨j, Nat.lt_trans hj hi⟩) (k + j)) = true) →
      (blocks.get ⟨i, hi⟩).printedNum = some n → n ≠ k + i + 1 →
      hoursParseGo k blocks = Except.error HourParseError.MismatchedNum := by
  intro blocks
  induction blocks with
  | nil =>
    intro i n k hi _ _ _
    exact absurd hi (by simp)
  | cons b bs ih =>
    intro i n k hi hok hn hne
    cases i with
    | zero =>
      have hb : Hour.parse b k = Except.error HourParseError.MismatchedNum :=
        Hour.parse_mismatchedNum (by simpa using hn) (by omega)
      rw [hoursParseGo_cons, hb]
    | succ m =>
      have h0 : isOkE (Hour.parse b k) = true := by
        have := hok 0 (by omega)
        simpa using this
      cases hb : Hour.parse b k with
      | error e => rw [hb] at h0; simp [isOkE] at h0
      | ok hr =>
        rw [hoursParseGo_cons, hb]
        have hrec : hoursParseGo (k + 1) bs = Except.error HourParseError.MismatchedNum := by
          refine ih (k + 1) (by simpa using hi) ?_ (by simpa using hn) (by omega)
          intro j hj
          have := hok (j + 1) (by omega)
          rw [show k + (j + 1) = k + 1 + j by omega] at this
          simpa using this
        rw [hrec]

theorem TempToken.get_of_le {t : TempToken} {now : Nat} (h : now ≤ t.expiration) :
    t.get now = some t.token := by
  unfold TempToken.get TempToken.expired
  simp
  omega

theorem runRequests_all_cached :
    ∀ {store : TempToken} {reqs : List Nat} (login : Nat → Except LoginError String) (k : Nat),
      (∀ r ∈ reqs, r ≤ store.expiration) →
      runRequests store reqs login k =
        (store, reqs.map (fun _ => Except.ok store.token), 0) := by
  intro store reqs
  induction reqs with
  | nil => intro login k _; rfl
  | cons r rs ih =>
    intro login k h
    have hr : store.get r = some store.token :=
      TempToken.get_of_le (h r (List.mem_cons_self r rs))
    have hrs := ih login k (fun x hx => h x (List.mem_cons_of_mem r hx))
    simp [runRequests, hr, hrs]

theorem runRequests_renewal {store : TempToken} {now cnt k : Nat}
    {login : Nat → Except LoginError String} {t : String}
    (hexp : store.expired now = true) (hlogin : login k = Except.ok t) :
    runRequests store (List.replicate (cnt + 1) now) login k =
      (TempToken.new t now, List.replicate (cnt + 1) (Except.ok t), 1) := by
  have h1 : store.get now = none := by
    unfold TempToken.get
    simp [hexp]
  rw [List.replicate_succ]
  have htail : runRequests (TempToken.new t now) (List.replicate cnt now) login (k + 1) =
      (TempToken.new t now, (List.replicate cnt now).map
        (fun _ => Except.ok (TempToken.new t now).token), 0) := by
    refine runRequests_all_cached login (k + 1) ?_
    intro r hr
    rw [List.eq_of_mem_replicate hr]
    simp [TempToken.new, TOKEN_LIFETIME]
  simp only [runRequests, h1, hlogin, htail]
  simp [List.map_replicate, List.replicate_succ, TempToken.new]

theorem single_iter_ok_elim {l : List α} {e : ε} {x : α} (h : single_iter l e = Except.ok x) :
    l = [x] := by
  cases l with
  | nil => simp [single_iter] at h
  | cons a as =>
    cases as with
    | nil => simp [single_iter] at h; rw [h]
    | cons b bs => simp [single_iter] at h

theorem Hour.parse_ok_printedNum {b : HourBlock} {i : Nat} {h : Hour}
    (hp : Hour.parse b i = Except.ok h) : b.printedNum = some (i + 1) := by
  unfold Hour.parse at hp
  simp only [Bind.bind, Except.bind] at hp
  split at hp
  · simp at hp
  · rename_i numEl heq1
    split at hp
    · simp at hp
    · rename_i numText heq2
      split at hp
      · rename_i n heq3
        split at hp
        · simp at hp
        · rename_i hnum
          have hn : n = i + 1 := by omega
          unfold HourBlock.printedNum
          rw [single_iter_ok_elim heq1, single_iter_ok_elim heq2]
          simp [heq3, hn]
      · simp at hp

theorem fromYmd?_eq {y : Int} {m d : Nat} {c : NDate} (h : fromYmd? y m d = some c) :
    c = NDate.mk y m d := by
  unfold fromYmd? at h
  split_ifs at h
  simpa using h.symm

/-! ## Claims -/

/-- Claim C1, counterexample: a page with one hour-header block and a day
row with zero cells decodes successfully (no failure), producing a
Timetable whose hour count (1) differs from the day's lesson-slot count
(0) — the claim that such inputs fail decoding is false. -/
theorem mismatched_cell_count_parses_ok :
    Timetable.parse (NDate.mk 2024 1 1)
        (Page.mk [HourBlock.mk [["1"]] [["08:00"], ["-"], ["08:45"]]] [DayRow.mk [[]] []])
        (TType.cls ("X"))
      = Except.ok (Timetable.mk [Hour.mk 480 45] [Day.mk none []])
  ∧ (Timetable.mk [Hour.mk 480 45] [Day.mk none []]).hours.length = 1
  ∧ ((Timetable.mk [Hour.mk 480 45] [Day.mk none []]).days.map
      (fun d => d.lessons.length)) = [0] :=
  ⟨rfl, rfl, rfl⟩

/-- Claim C1, amended: `Timetable::parse` performs no comparison between a
day's cell count and the hour count; every decoded Day keeps exactly the
number of lesson slots its row's cell elements yield, whether or not that
equals the number of decoded Hours. -/
theorem day_cell_count_uncompared (today : NDate) (page : Page) (tt : TType) (t : Timetable)
    (h : Timetable.parse today page tt = Except.ok t) :
    t.days.length = page.dayRows.length ∧
    ∀ i (h1 : i < t.days.length) (h2 : i < page.dayRows.length),
      (t.days.get ⟨i, h1⟩).lessons.length = (page.dayRows.get ⟨i, h2⟩).cells.length := by
  obtain ⟨hh, hd⟩ := timetableParse_ok_elim h
  have hlen := traverseE_ok_length hd
  refine ⟨hlen, ?_⟩
  intro i h1 h2
  have hget := traverseE_ok_get hd i h2 h1
  obtain ⟨lessons, hl, hdl⟩ := dayParse_ok_elim hget
  rw [hdl]
  exact traverseE_ok_length hl

/-- Witness for `day_cell_count_uncompared` at a page with one hour and a
two-cell day row. -/
theorem day_cell_count_uncompared_witness :
    Timetable.parse (NDate.mk 2024 1 1)
        (Page.mk [HourBlock.mk [["1"]] [["08:00"], ["-"], ["08:45"]]]
          [DayRow.mk [[]] [Cell.mk [], Cell.mk []]])
        (TType.cls ("X"))
      = Except.ok (Timetable.mk [Hour.mk 480 45] [Day.mk none [[], []]])
  ∧ (Timetable.mk [Hour.mk 480 45] [Day.mk none [[], []]]).days.length
      = (Page.mk [HourBlock.mk [["1"]] [["08:00"], ["-"], ["08:45"]]]
          [DayRow.mk [[]] [Cell.mk [], Cell.mk []]]).dayRows.length :=
  ⟨rfl,
    (day_cell_count_uncompared (NDate.mk 2024 1 1)
      (Page.mk [HourBlock.mk [["1"]] [["08:00"], ["-"], ["08:45"]]]
        [DayRow.mk [[]] [Cell.mk [], Cell.mk []]])
      (TType.cls ("X"))
      (Timetable.mk [Hour.mk 480 45] [Day.mk none [[], []]]) rfl).1⟩

/-- Claim C2: while the cached token is unexpired every read returns it with
no login; once expired, a whole batch of concurrent readers (serialized by
the owning actor) triggers exactly one login exchange, all of them receive
the renewed token, and the renewal is cached with a fresh
`TOKEN_LIFETIME` (5-minute) window. -/
theorem token_cache_and_single_flight_renewal :
    (∀ (store : TempToken) (reqs : List Nat) (login : Nat → Except LoginError String) (k : Nat),
        (∀ r ∈ reqs, r ≤ store.expiration) →
        runRequests store reqs login k = (store, reqs.map (fun _ => Except.ok store.token), 0))
  ∧ (∀ (store : TempToken) (now cnt k : Nat) (login : Nat → Except LoginError String)
        (t : String),
        store.expired now = true → login k = Except.ok t →
        runRequests store (List.replicate (cnt + 1) now) login k =
          (TempToken.new t now, List.replicate (cnt + 1) (Except.ok t), 1) ∧
        (TempToken.new t now).expiration = now + TOKEN_LIFETIME) := by
  constructor
  · intro store reqs login k h
    exact runRequests_all_cached login k h
  · intro store now cnt k login t hexp hlogin
    exact ⟨runRequests_renewal hexp hlogin, rfl⟩

/-- Witness for `token_cache_and_single_flight_renewal`: token T1 issued at
0 expires at 300; a read at 299 returns T1 with no login, and ten
concurrent reads at 301 produce one login and all return T2, cached until
601. -/
theorem token_cache_and_single_flight_renewal_witness :
    runRequests (TempToken.mk ("T1") 300) [299] (fun _ => Except.error LoginError.Request) 0
      = (TempToken.mk ("T1") 300, [Except.ok ("T1")], 0)
  ∧ runRequests (TempToken.mk ("T1") 300) (List.replicate 10 301) (fun _ => Except.ok ("T2")) 0
      = (TempToken.mk ("T2") 601, List.replicate 10 (Except.ok ("T2")), 1) := by
  constructor
  · simpa using token_cache_and_single_flight_renewal.1 (TempToken.mk ("T1") 300) [299]
      (fun _ => Except.error LoginError.Request) 0 (by decide)
  · have := (token_cache_and_single_flight_renewal.2 (TempToken.mk ("T1") 300) 301 9 0
      (fun _ => Except.ok ("T2")) ("T2") (by decide) rfl).1
    simpa [TempToken.new, TOKEN_LIFETIME] using this

/-- Claim C3: a `removed` payload on an entry without the `pink` CSS class,
and an `absent` payload on an entry without the `green` CSS class, decode
as the `DataTypeMismatch` error (so never as `Canceled` or `Absent`). -/
theorem lesson_variant_css_crosscheck :
    (∀ (e : LessonEl) (tt : TType) (st : Option String),
        e.detail = RawDetail.decoded (LessonData.canceled st) →
        e.has_class ("pink") = false →
        parse_single e tt = Except.error LessonParseError.DataTypeMismatch)
  ∧ (∀ (e : LessonEl) (tt : TType) (a b : Option String),
        e.detail = RawDetail.decoded (LessonData.absent a b) →
        e.has_class ("green") = false →
        parse_single e tt = Except.error LessonParseError.DataTypeMismatch) := by
  constructor
  · intro e tt st hdet hcls
    simp [parse_single, hdet, hcls, Bind.bind, Except.bind]
  · intro e tt a b hdet hcls
    simp [parse_single, hdet, hcls, Bind.bind, Except.bind]

/-- Witness for `lesson_variant_css_crosscheck` at concrete entries with no
CSS classes at all. -/
theorem lesson_variant_css_crosscheck_witness :
    parse_single (LessonEl.mk (RawDetail.decoded (LessonData.canceled none)) [] [] [])
        (TType.cls ("X")) = Except.error LessonParseError.DataTypeMismatch
  ∧ parse_single
        (LessonEl.mk (RawDetail.decoded (LessonData.absent (some ("i")) (some ("a")))) [] [] [])
        (TType.cls ("X")) = Except.error LessonParseError.DataTypeMismatch :=
  ⟨lesson_variant_css_crosscheck.1
      (LessonEl.mk (RawDetail.decoded (LessonData.canceled none)) [] [] [])
      (TType.cls ("X")) none rfl rfl,
    lesson_variant_css_crosscheck.2
      (LessonEl.mk (RawDetail.decoded (LessonData.absent (some ("i")) (some ("a")))) [] [] [])
      (TType.cls ("X")) (some ("i")) (some ("a")) rfl rfl⟩

/-- Claim C4: for a printed `D.M.` date string, the candidate date is
built in the current local year; more than 60 days in the past shifts the
year forward by one, more than 60 days in the future shifts it back by
one, and otherwise the candidate is kept. -/
theorem day_date_year_inference
    (today : NDate) (s dayS rest monthS rest2 : String) (m d : Nat) (c : NDate)
    (h1 : splitOnceStr s (".") = some (dayS, rest))
    (h2 : splitOnceStr rest (".") = some (monthS, rest2))
    (hm : parseNat? monthS = some m)
    (hd : parseNat? dayS = some d)
    (hc : fromYmd? today.year m d = some c) :
    (dateDiff c today < -60 →
      ∀ c2, fromYmd? (today.year + 1) c.month c.day = some c2 →
        inferDate today s = Except.ok c2 ∧ c2.year = today.year + 1)
  ∧ (dateDiff c today > 60 →
      ∀ c2, fromYmd? (today.year - 1) c.month c.day = some c2 →
        inferDate today s = Except.ok c2 ∧ c2.year = today.year - 1)
  ∧ (-60 ≤ dateDiff c today → dateDiff c today ≤ 60 → inferDate today s = Except.ok c) := by
  refine ⟨?_, ?_, ?_⟩
  · intro hdiff c2 hc2
    refine ⟨?_, by rw [fromYmd?_eq hc2]⟩
    unfold inferDate
    simp only [h1, h2, hm, hd, hc]
    rw [if_pos hdiff, hc2]
  · intro hdiff c2 hc2
    refine ⟨?_, by rw [fromYmd?_eq hc2]⟩
    unfold inferDate
    simp only [h1, h2, hm, hd, hc]
    rw [if_neg (by omega), if_pos hdiff, hc2]
  · intro hge hle
    unfold inferDate
    simp only [h1, h2, hm, hd, hc]
    rw [if_neg (by omega), if_neg (by omega)]

/-- Witness for `day_date_year_inference`: today 2024-01-01 with printed
"15.12." decodes to 2023-12-15 (more than 60 days in the future in the
same-year guess), and today 2024-03-01 with printed "15.1." keeps the year
(2024-01-15, 46 days in the past). -/
theorem day_date_year_inference_witness :
    inferDate (NDate.mk 2024 1 1) ("15.12.") = Except.ok (NDate.mk 2023 12 15)
  ∧ inferDate (NDate.mk 2024 3 1) ("15.1.") = Except.ok (NDate.mk 2024 1 15) := by
  constructor
  · exact ((day_date_year_inference (NDate.mk 2024 1 1) ("15.12.") ("15") ("12.") ("12") ("")
      12 15 (NDate.mk 2024 12 15) rfl rfl rfl rfl rfl).2.1 (by decide)
      (NDate.mk 2023 12 15) rfl).1
  · exact (day_date_year_inference (NDate.mk 2024 3 1) ("15.1.") ("15") ("1.") ("1") ("")
      1 15 (NDate.mk 2024 1 15) rfl rfl rfl rfl rfl).2.2 (by decide) (by decide)

/-- Claim C5: hour blocks that decode pointwise (which forces each printed
number to equal its 1-based position) decode to exactly that list of Hours
in order; a successful decode forces printed number `i+1` at every position
`i`; and a block whose printed number differs from its position — with all
earlier blocks decoding — fails the whole hour decoding with
`MismatchedNum`. -/
theorem hour_sequence_numbering :
    (∀ (blocks : List HourBlock) (hs : List Hour),
        hs.length = blocks.length →
        (∀ i (h1 : i < blocks.length) (h2 : i < hs.length),
            Hour.parse (blocks.get ⟨i, h1⟩) i = Except.ok (hs.get ⟨i, h2⟩)) →
        hoursParse blocks = Except.ok hs)
  ∧ (∀ (blocks : List HourBlock) (hs : List Hour),
        hoursParse blocks = Except.ok hs →
        hs.length = blocks.length ∧
        ∀ i (h1 : i < blocks.length),
          (blocks.get ⟨i, h1⟩).printedNum = some (i + 1))
  ∧ (∀ (blocks : List HourBlock) (i n : Nat) (hi : i < blocks.length),
        (∀ j (hj : j < i), isOkE (Hour.parse (blocks.get ⟨j, Nat.lt_trans hj hi⟩) j) = true) →
        (blocks.get ⟨i, hi⟩).printedNum = some n → n ≠ i + 1 →
        hoursParse blocks = Except.error HourParseError.MismatchedNum) := by
  refine ⟨?_, ?_, ?_⟩
  · intro blocks hs hlen hpt
    refine hoursParseGo_ok_of_parts 0 hlen ?_
    intro i h1 h2
    rw [show 0 + i = i by omega]
    exact hpt i h1 h2
  · intro blocks hs h
    obtain ⟨hlen, hpt⟩ := hoursParseGo_ok_get h
    refine ⟨hlen, ?_⟩
    intro i h1
    have := hpt i h1 (by omega)
    rw [show 0 + i = i by omega] at this
    exact Hour.parse_ok_printedNum this
  · intro blocks i n hi hok hn hne
    refine hoursParseGo_mismatch 0 hi ?_ hn (by omega)
    intro j hj
    rw [show 0 + j = j by omega]
    exact hok j hj

/-- Witness for `hour_sequence_numbering`: two well-formed blocks numbered
1, 2 decode to two Hours in order with the printed numbers matching the
positions; replacing the second block's number with 3 fails with
`MismatchedNum`. -/
theorem hour_sequence_numbering_witness :
    hoursParse [HourBlock.mk [["1"]] [["08:00"], ["-"], ["08:45"]],
        HourBlock.mk [["2"]] [["09:00"], ["-"], ["09:45"]]]
      = Except.ok [Hour.mk 480 45, Hour.mk 540 45]
  ∧ (HourBlock.mk [["2"]] [["09:00"], ["-"], ["09:45"]]).printedNum = some 2
  ∧ hoursParse [HourBlock.mk [["1"]] [["08:00"], ["-"], ["08:45"]],
        HourBlock.mk [["3"]] [["09:00"], ["-"], ["09:45"]]]
      = Except.error HourParseError.MismatchedNum := by
  refine ⟨?_, ?_, ?_⟩
  · refine hour_sequence_numbering.1
      [HourBlock.mk [["1"]] [["08:00"], ["-"], ["08:45"]],
        HourBlock.mk [["2"]] [["09:00"], ["-"], ["09:45"]]]
      [Hour.mk 480 45, Hour.mk 540 45] rfl ?_
    intro i h1 h2
    cases i with
    | zero => rfl
    | succ j =>
      cases j with
      | zero => rfl
      | succ l => exact absurd h1 (by simp only [List.length_cons, List.length_nil]; omega)
  · exact (hour_sequence_numbering.2.1
      [HourBlock.mk [["1"]] [["08:00"], ["-"], ["08:45"]],
        HourBlock.mk [["2"]] [["09:00"], ["-"], ["09:45"]]]
      [Hour.mk 480 45, Hour.mk 540 45] rfl).2 1 (by decide)
  · refine hour_sequence_numbering.2.2
      [HourBlock.mk [["1"]] [["08:00"], ["-"], ["08:45"]],
        HourBlock.mk [["3"]] [["09:00"], ["-"], ["09:45"]]]
      1 3 (by decide) ?_ rfl (by decide)
    intro j hj
    cases j with
    | zero => rfl
    | succ l => exact absurd hj (by omega)

/-- Claim C6, counterexample: an atom payload that carries a `teacher`
field decoded in a Teacher-kind timetable takes the payload's teacher name
("X"), not the viewed teacher's name ("T") — the claimed unconditional
substitution is false. -/
theorem teacher_view_payload_overrides_viewed_name :
    parse_single
        (LessonEl.mk
          (RawDetail.decoded (LessonData.regular
            (RegularData.mk (some ("Math | x")) (some ("X")) none (some ("G"))
              none none none none none false none)))
          [] [["M"]] [])
        (TType.teacher ("T"))
      = Except.ok (Lesson.Regular ("G") ("Math") ("M") ("X") none none (some ("G")) none)
  ∧ ("X" : String) ≠ ("T") :=
  ⟨rfl, by decide⟩

/-- Claim C6, amended: in a Teacher-kind timetable the viewed teacher's
name is substituted only when the payload's `teacher` field is absent, the
payload's field wins when present, and no teacher-abbreviation sub-element
is ever required (teacher_abbr is `none`); in any non-Teacher kind the
teacher comes from the payload (a missing field is a missing-property
error) and a missing teacher-abbreviation sub-element fails with
`MissingProperty "teacher_abbr"`. -/
theorem teacher_resolution_by_kind :
    (∀ (lesson : LessonEl) (n : String),
        parser_teacher lesson none (TType.teacher n) = Except.ok (n, none))
  ∧ (∀ (lesson : LessonEl) (t n : String),
        parser_teacher lesson (some t) (TType.teacher n) = Except.ok (t, none))
  ∧ (∀ (lesson : LessonEl) (t : String) (tt : TType), tt.isTeacher = false →
        lesson.bottom = [] →
        parser_teacher lesson (some t) tt =
          Except.error (LessonParseError.MissingProperty ("teacher_abbr")))
  ∧ (∀ (lesson : LessonEl) (t b : String) (tt : TType), tt.isTeacher = false →
        lesson.bottom = [[b]] →
        parser_teacher lesson (some t) tt = Except.ok (t, some (trimStr b)))
  ∧ (∀ (lesson : LessonEl) (tt : TType), tt.isTeacher = false →
        parser_teacher lesson none tt =
          Except.error (LessonParseError.MissingProperty ("teacher"))) := by
  refine ⟨?_, ?_, ?_, ?_, ?_⟩
  · intro lesson n
    rfl
  · intro lesson t n
    rfl
  · intro lesson t tt htt hbot
    cases tt with
    | teacher id => simp [TType.isTeacher] at htt
    | cls id => simp [parser_teacher, get_prop, hbot, single_iter, Bind.bind, Except.bind]
    | room id => simp [parser_teacher, get_prop, hbot, single_iter, Bind.bind, Except.bind]
  · intro lesson t b tt htt hbot
    cases tt with
    | teacher id => simp [TType.isTeacher] at htt
    | cls id => simp [parser_teacher, get_prop, hbot, single_iter, Bind.bind, Except.bind]
    | room id => simp [parser_teacher, get_prop, hbot, single_iter, Bind.bind, Except.bind]
  · intro lesson tt htt
    cases tt with
    | teacher id => simp [TType.isTeacher] at htt
    | cls id => rfl
    | room id => rfl

/-- Witness for `teacher_resolution_by_kind` at concrete entries in the
Teacher and Class kinds. -/
theorem teacher_resolution_by_kind_witness :
    parser_teacher (LessonEl.mk RawDetail.missing [] [] []) none (TType.teacher ("T"))
      = Except.ok (("T"), none)
  ∧ parser_teacher (LessonEl.mk RawDetail.missing [] [] []) (some ("X")) (TType.teacher ("T"))
      = Except.ok (("X"), none)
  ∧ parser_teacher (LessonEl.mk RawDetail.missing [] [] []) (some ("X")) (TType.cls ("C"))
      = Except.error (LessonParseError.MissingProperty ("teacher_abbr"))
  ∧ parser_teacher (LessonEl.mk RawDetail.missing [] [] [[" Ab "]]) (some ("X")) (TType.cls ("C"))
      = Except.ok (("X"), some ("Ab"))
  ∧ parser_teacher (LessonEl.mk RawDetail.missing [] [] []) none (TType.cls ("C"))
      = Except.error (LessonParseError.MissingProperty ("teacher")) := by
  refine ⟨?_, ?_, ?_, ?_, ?_⟩
  · exact teacher_resolution_by_kind.1 (LessonEl.mk RawDetail.missing [] [] []) ("T")
  · exact teacher_resolution_by_kind.2.1 (LessonEl.mk RawDetail.missing [] [] []) ("X") ("T")
  · exact teacher_resolution_by_kind.2.2.1 (LessonEl.mk RawDetail.missing [] [] [])
      ("X") (TType.cls ("C")) rfl rfl
  · have := teacher_resolution_by_kind.2.2.2.1 (LessonEl.mk RawDetail.missing [] [] [[" Ab "]])
      ("X") (" Ab ") (TType.cls ("C")) rfl rfl
    simpa using this
  · exact teacher_resolution_by_kind.2.2.2.2 (LessonEl.mk RawDetail.missing [] [] [])
      (TType.cls ("C")) rfl

/-- Claim C7, counterexample: in anonymous mode `Auth::get_token` yields
the empty string and `Bakalari::get_timetable` still attaches a `Cookie`
header (`Cookie: BakaAuth=`) — the header is not omitted. -/
theorem anonymous_request_carries_cookie_header :
    Auth.get_token AuthMode.anonymous (Except.error LoginError.Request) = Except.ok ("")
  ∧ timetableRequestHeaders ("") = [(("Cookie"), ("BakaAuth="))]
  ∧ ((timetableRequestHeaders ("")).any (fun p => p.1 == ("Cookie"))) = true :=
  ⟨rfl, rfl, rfl⟩

/-- Claim C7, amended: a bare token is returned verbatim on every read and
never renewed (the store outcome is ignored); anonymous mode yields the
empty-string token, so the timetable request carries the header
`Cookie: BakaAuth=` instead of omitting it. -/
theorem bare_token_and_anonymous_modes :
    (∀ (t : String) (r : Except LoginError String),
        Auth.get_token (AuthMode.token t) r = Except.ok t)
  ∧ (∀ (r : Except LoginError String),
        Auth.get_token AuthMode.anonymous r = Except.ok (""))
  ∧ (∀ (t : String), timetableRequestHeaders t = [(("Cookie"), ("BakaAuth=" ++ t))]) := by
  refine ⟨?_, ?_, ?_⟩
  · intro t r
    rfl
  · intro r
    rfl
  · intro t
    rfl

/-- Claim C8: the request path is built with the `Display` rendering of
`Which`, which (having no display attribute) is the capitalized variant
name, so `Which::Actual` produces `/timetable/public/Actual/teacher/abc`
rather than the lowercase wire path; the enum's own serde renaming is the
lowercase form. -/
theorem which_display_breaks_wire_path :
    timetablePath Which.Actual (TType.teacher ("abc"))
      = "/timetable/public/Actual/teacher/abc"
  ∧ timetablePath Which.Actual (TType.teacher ("abc"))
      ≠ "/timetable/public/actual/teacher/abc"
  ∧ Which.display Which.Actual ≠ Which.serdeName Which.Actual
  ∧ (∀ w : Which, lowerStr (Which.display w) = Which.serdeName w) := by
  refine ⟨rfl, by decide, by decide, ?_⟩
  intro w
  cases w <;> rfl

/-- Claim C9: two option entries with the same trimmed display name and
different values resolve last-wins — the built map holds the later
identifier and a selector lookup for that name returns it. -/
theorem directory_duplicate_name_last_wins
    (n1 n2 v1 v2 : String) (h : trimStr n1 = trimStr n2) :
    get_map [OptionEl.mk [n1] (some v1), OptionEl.mk [n2] (some v2)]
      = Except.ok [(trimStr n2, trimStr v2)]
  ∧ get_selector (Directory.mk [(trimStr n2, trimStr v2)] [] []) RawType.Class (trimStr n2)
      = some (TType.cls (trimStr v2)) := by
  constructor
  · have h2 : get_map [OptionEl.mk [n1] (some v1), OptionEl.mk [n2] (some v2)]
        = Except.ok
          (hmInsert (hmInsert [] (trimStr n1) (trimStr v1)) (trimStr n2) (trimStr v2)) := rfl
    rw [h2]
    simp [hmInsert, h]
  · simp [get_selector, hmGet]

/-- Witness for `directory_duplicate_name_last_wins`: two options with
display text "7.B " / "7.B" (equal after trimming) and values "7A", "7B";
the map keeps "7B" and the Class selector lookup returns it. -/
theorem directory_duplicate_name_last_wins_witness :
    get_map [OptionEl.mk [("7.B ")] (some ("7A")), OptionEl.mk [("7.B")] (some ("7B"))]
      = Except.ok [(("7.B"), ("7B"))]
  ∧ get_selector (Directory.mk [(("7.B"), ("7B"))] [] []) RawType.Class ("7.B")
      = some (TType.cls ("7B")) :=
  directory_duplicate_name_last_wins ("7.B ") ("7.B") ("7A") ("7B") (by decide)

/-- Claim C10: day decoding requires exactly one `span.bk-day-date`
element — zero or two such elements fail with `NoDate` — while a single
span with no text yields a Day with no date and no error. -/
theorem day_single_date_span_rule :
    (∀ (today : NDate) (tt : TType) (cells : List Cell),
        Day.parse today (DayRow.mk [] cells) tt = Except.error DayParseError.NoDate)
  ∧ (∀ (today : NDate) (tt : TType) (s1 s2 : List String) (rest : List (List String))
        (cells : List Cell),
        Day.parse today (DayRow.mk (s1 :: s2 :: rest) cells) tt
          = Except.error DayParseError.NoDate)
  ∧ (∀ (today : NDate) (tt : TType) (cells : List Cell) (res : List (List Lesson)),
        traverseE (fun c => Lesson.parse c tt) cells = Except.ok res →
        Day.parse today (DayRow.mk [[]] cells) tt = Except.ok (Day.mk none res)) := by
  refine ⟨?_, ?_, ?_⟩
  · intro today tt cells
    rfl
  · intro today tt s1 s2 rest cells
    rfl
  · intro today tt cells res h
    unfold Day.parse
    simp [single_iter, Bind.bind, Except.bind, h, Except.mapError]

/-- Witness for `day_single_date_span_rule`: a row with one empty date
span and one empty cell decodes to a Day with no date and one empty
slot. -/
theorem day_single_date_span_rule_witness :
    Day.parse (NDate.mk 2024 1 1) (DayRow.mk [[]] [Cell.mk []]) (TType.cls ("X"))
      = Except.ok (Day.mk none [[]]) :=
  day_single_date_span_rule.2.2 (NDate.mk 2024 1 1) (TType.cls ("X")) [Cell.mk []] [[]] rfl

end Rezvrh
